import Mathlib

/-!
Shallow embedding of the attendance/leave core of the clock-in-sync HRMS
repository: the role predicates (lib/auth), the attendance punch handlers
(AttendancePage), the leave workflow handlers (LeavePage, LeaveRequestForm),
the route guard (ProtectedRoute, App) and the per-department attendance
aggregation (ReportsPage).  Each definition mirrors one source function;
stateful supabase tables are modelled as explicit lists threaded through the
handlers, and toast notifications as explicit return values.
-/

namespace HRMS

/-- Role enumeration from lib/auth (`UserRole` union type). -/
inductive UserRole
  | SUPERADMIN
  | ADMIN
  | HR
  | HOD
  | MANAGER
  | DIRECTOR
  | EMPLOYEE
deriving DecidableEq, Repr

open UserRole

/-- Embedding of `isAdmin` from lib/auth: membership of the role in
SUPERADMIN/ADMIN/HR, false for an absent role. -/
def isAdmin : Option UserRole → Bool
  | some r => [SUPERADMIN, ADMIN, HR].contains r
  | none => false

/-- Embedding of `canManageEmployees` from lib/auth (the capability the spec
calls canManageWorkforce): membership of the role in
SUPERADMIN/ADMIN/HR/HOD/MANAGER, false for an absent role.  It is a plain
function of the role value, with no state and no effects. -/
def canManageEmployees : Option UserRole → Bool
  | some r => [SUPERADMIN, ADMIN, HR, HOD, MANAGER].contains r
  | none => false

/-- The fields of the `UserProfile` record that the handlers under
verification read: the profile identifier and the role. -/
structure UserProfile where
  id : Nat
  role : UserRole
deriving DecidableEq, Repr

/-- A toast notification as issued through `useToast`: title, description and
whether the `destructive` (error) variant was used.  Toasts are the
user-facing outcome channel of every handler. -/
structure Toast where
  title : String
  description : String
  destructive : Bool
deriving DecidableEq, Repr

/-! ## Geolocation (AttendancePage.getCurrentLocation) -/

/-- Outcome delivered by the browser geolocation capability to
`getCurrentLocation`: a position (success callback), an error (the error
callback, covering denial, unavailability and timeout), or the whole API
being absent (`navigator.geolocation` falsy). -/
inductive GeoOutcome
  | position (latitude longitude : String)
  | geoError
  | unsupported
deriving DecidableEq, Repr

/-- Embedding of `getCurrentLocation` from AttendancePage: the promise only
ever resolves — with the stringified coordinates on success, and with a
sentinel string on error or missing API.  There is no reject path. -/
def getCurrentLocation : GeoOutcome → String
  | .position lat long => lat ++ ", " ++ long
  | .geoError => "Location not available"
  | .unsupported => "Geolocation not supported"

/-! ## Attendance records (AttendancePage) -/

/-- The `attendance` table row as used by AttendancePage.  Timestamps are
epoch milliseconds; `date` is the ISO calendar-date string. -/
structure AttendanceRecord where
  id : Nat
  user_id : Nat
  date : String
  punch_in : Option Int
  punch_out : Option Int
  total_hours : Option Int
  status : String
  location_in : Option String
  location_out : Option String
deriving DecidableEq, Repr

/-- Failure reported by the modelled attendance store. -/
inductive StoreFailure
  | DuplicateRecordError
deriving DecidableEq, Repr

/-- Modelled from the spec: the data store's uniqueness constraint on
attendance rows — the schema-level unique constraint on (user, date) is not
part of the checked sources (only the generated table types are), so per the
spec the insert is an atomic conditional insert that fails with
`DuplicateRecordError` when a record for the same (user, date) already
exists, and appends the row otherwise. -/
def insertAttendance (store : List AttendanceRecord) (rec : AttendanceRecord) :
    Except StoreFailure (List AttendanceRecord) :=
  if store.any (fun r => r.user_id = rec.user_id ∧ r.date = rec.date) then
    .error .DuplicateRecordError
  else
    .ok (store ++ [rec])

/-- The row built by `handlePunchIn`: punch-in now, resolved location, status
PRESENT, everything else unset. -/
def punchInRecord (p : UserProfile) (today : String) (now : Int)
    (geo : GeoOutcome) (nextId : Nat) : AttendanceRecord :=
  { id := nextId
    user_id := p.id
    date := today
    punch_in := some now
    punch_out := none
    total_hours := none
    status := "PRESENT"
    location_in := some (getCurrentLocation geo)
    location_out := none }

/-- Embedding of `handlePunchIn` from AttendancePage: bail out silently with
no profile; otherwise resolve the location, insert the new row, and toast —
destructive "Failed to punch in. Please try again." on store failure, success
otherwise.  Returns the store after the call together with the toast (if
any). -/
def handlePunchIn (profile : Option UserProfile) (today : String) (now : Int)
    (geo : GeoOutcome) (nextId : Nat) (store : List AttendanceRecord) :
    List AttendanceRecord × Option Toast :=
  match profile with
  | none => (store, none)
  | some p =>
    match insertAttendance store (punchInRecord p today now geo nextId) with
    | .error _ =>
        (store, some ⟨"Error", "Failed to punch in. Please try again.", true⟩)
    | .ok st =>
        (st, some ⟨"Punched In!", "Your attendance has been recorded.", false⟩)

/-- Embedding of `handlePunchOut` from AttendancePage: bail out silently when
either the profile or the loaded today-record is absent; otherwise resolve
the location and update the row with the matching id, setting punch-out and
location-out, then toast success.  The handler itself performs no check on
the loaded record's state. -/
def handlePunchOut (profile : Option UserProfile)
    (todayAttendance : Option AttendanceRecord) (now : Int) (geo : GeoOutcome)
    (store : List AttendanceRecord) : List AttendanceRecord × Option Toast :=
  match profile, todayAttendance with
  | some _, some ta =>
      (store.map fun r =>
        if r.id = ta.id then
          { r with punch_out := some now
                   location_out := some (getCurrentLocation geo) }
        else r,
       some ⟨"Punched Out!", "Your day has been completed.", false⟩)
  | _, _ => (store, none)

/-- The action control AttendancePage renders for today. -/
inductive TodayControl
  | punchInButton
  | punchOutButton
  | dayCompleted
deriving DecidableEq, Repr

/-- Embedding of the AttendancePage action area: the punch-in button when no
today-record is loaded, the punch-out button when the loaded record has no
punch-out yet, and the terminal "Day Completed" badge otherwise. -/
def todayControl : Option AttendanceRecord → TodayControl
  | none => .punchInButton
  | some ta => if ta.punch_out = none then .punchOutButton else .dayCompleted

/-! ## Leave workflow (LeavePage, LeaveRequestForm) -/

/-- The `leave_requests` table row as used by LeavePage and
LeaveRequestForm.  Dates are epoch milliseconds of the parsed date strings. -/
structure LeaveRequest where
  id : Nat
  user_id : Nat
  leave_type : String
  start_date : Int
  end_date : Int
  reason : String
  status : String
  approved_by : Option Nat
  approved_at : Option Int
deriving DecidableEq, Repr

/-- The target status argument of `handleApproveReject`
(TypeScript union 'APPROVED' | 'REJECTED'). -/
inductive DecisionStatus
  | APPROVED
  | REJECTED
deriving DecidableEq, Repr

/-- String written to the status column for a decision. -/
def DecisionStatus.str : DecisionStatus → String
  | .APPROVED => "APPROVED"
  | .REJECTED => "REJECTED"

/-- Embedding of `handleApproveReject` from LeavePage: bail out silently with
no profile; otherwise update every row with the matching id, writing the
target status, the caller as approver and the current time as the approval
timestamp.  The update is keyed by id only — the handler imposes no
condition on the row's current status and no capability condition on the
caller. -/
def handleApproveReject (profile : Option UserProfile) (requestId : Nat)
    (status : DecisionStatus) (now : Int) (store : List LeaveRequest) :
    List LeaveRequest :=
  match profile with
  | none => store
  | some p =>
      store.map fun r =>
        if r.id = requestId then
          { r with status := status.str
                   approved_by := some p.id
                   approved_at := some now }
        else r

/-- Embedding of the LeavePage gating around the decision buttons: the
all-requests card is rendered only when `canManageEmployees` holds for the
viewer, and inside it the approve/reject buttons are rendered only for rows
whose status is PENDING. -/
def decisionButtonsShown (profile : Option UserProfile) (request : LeaveRequest) :
    Bool :=
  canManageEmployees (profile.map (fun p => p.role)) && (request.status == "PENDING")

/-- The form state of LeaveRequestForm.  Dates are epoch milliseconds of the
selected calendar dates. -/
structure LeaveFormData where
  leave_type : String
  start_date : Int
  end_date : Int
  reason : String
deriving DecidableEq, Repr

/-- Embedding of `handleSubmit` from LeaveRequestForm: bail out silently with
no profile; otherwise insert a row with the form's fields and status PENDING
and toast success.  The handler contains no validation of the date range or
the reason. -/
def handleSubmit (profile : Option UserProfile) (formData : LeaveFormData)
    (nextId : Nat) (store : List LeaveRequest) :
    List LeaveRequest × Option Toast :=
  match profile with
  | none => (store, none)
  | some p =>
      (store ++
        [{ id := nextId
           user_id := p.id
           leave_type := formData.leave_type
           start_date := formData.start_date
           end_date := formData.end_date
           reason := formData.reason
           status := "PENDING"
           approved_by := none
           approved_at := none }],
       some ⟨"Success", "Leave request submitted successfully", false⟩)

/-- Embedding of the native input constraints declared in the
LeaveRequestForm markup: the end-date input carries min = start date, and
the reason textarea carries the required attribute, so a form submission the
browser lets through has end ≥ start and a non-empty reason. -/
def formInputConstraints (formData : LeaveFormData) : Bool :=
  (formData.start_date ≤ formData.end_date) && (formData.reason ≠ "")

/-- Milliseconds in a day, the divisor used by `calculateDays`. -/
def msPerDay : Nat := 86400000

/-- Embedding of `calculateDays` (identical in LeavePage and
LeaveRequestForm): the absolute difference of the two parsed timestamps,
divided by a day in milliseconds and rounded up, plus one. -/
def calculateDays (start_date end_date : Int) : Nat :=
  let diffTime : Nat := (end_date - start_date).natAbs
  (diffTime + (msPerDay - 1)) / msPerDay + 1

/-! ## Route guard (ProtectedRoute, App) -/

/-- What ProtectedRoute renders. -/
inductive GuardResult
  | loadingSpinner
  | redirectAuth
  | redirectDashboard
  | renderChildren
deriving DecidableEq, Repr

/-- The `useAuth` snapshot read by ProtectedRoute. -/
structure AuthState where
  loading : Bool
  user : Option Nat
  profile : Option UserProfile
deriving DecidableEq, Repr

/-- Embedding of the ProtectedRoute component: spinner while loading,
redirect to /auth when no user, redirect to /dashboard when a role
allow-list is given, the profile is loaded and its role is not in the list,
and the children otherwise.  The codomain has no error page and the
function never throws. -/
def ProtectedRoute (auth : AuthState) (requiredRole : Option (List UserRole)) :
    GuardResult :=
  if auth.loading then .loadingSpinner
  else
    match auth.user with
    | none => .redirectAuth
    | some _ =>
        match requiredRole, auth.profile with
        | some roles, some p =>
            if roles.contains p.role then .renderChildren else .redirectDashboard
        | _, _ => .renderChildren

/-- The allow-list App.tsx passes to ProtectedRoute on the /employees
(employee-management) route. -/
def employeesRequiredRole : List UserRole :=
  [SUPERADMIN, ADMIN, HR, HOD, MANAGER]

/-! ## Reporting aggregator (ReportsPage.fetchDepartmentAttendance)

The `departmentStats` object is keyed by department name in insertion order;
it is modelled as an association list.  The first pass walks every active
profile (each carrying an optional joined department name) and increments the
department's total, creating the key with zeroed counters first when absent.
The second pass walks the present-today join rows and increments the
department's present counter for rows whose attendance status is PRESENT;
in the source this pass indexes `departmentStats[deptName]` without creating
the key, so a PRESENT row whose department key is missing is a runtime
TypeError, modelled as the error case of `Except`. -/

/-- Counters accumulated per department name. -/
structure DeptStat where
  present : Nat
  total : Nat
deriving DecidableEq, Repr

/-- One entry of the `deptData` array ReportsPage renders. -/
structure DepartmentAttendance where
  department : String
  present : Nat
  total : Nat
  percentage : Nat
deriving DecidableEq, Repr

/-- The department key used for a profile row: the joined department name, or
the literal "No Department" when the join is null. -/
def deptKey (dept : Option String) : String :=
  dept.getD "No Department"

/-- First-pass step: create the key with zeroed counters when absent, then
increment its total. -/
def addTotal (stats : List (String × DeptStat)) (key : String) :
    List (String × DeptStat) :=
  if stats.any (fun e => e.1 = key) then
    stats.map fun e =>
      if e.1 = key then (e.1, { e.2 with total := e.2.total + 1 }) else e
  else
    stats ++ [(key, { present := 0, total := 1 })]

/-- Second-pass step: increment the present counter of an existing key. -/
def bumpPresent (stats : List (String × DeptStat)) (key : String) :
    List (String × DeptStat) :=
  stats.map fun e =>
    if e.1 = key then (e.1, { e.2 with present := e.2.present + 1 }) else e

/-- Second pass over the present-today join rows (department name and whether
the joined attendance row has status PRESENT): PRESENT rows increment the
present counter, and a PRESENT row whose key is absent is the source's
TypeError. -/
def countPresent (stats : List (String × DeptStat)) :
    List (Option String × Bool) → Except String (List (String × DeptStat))
  | [] => .ok stats
  | (dept, isPresent) :: rest =>
      if isPresent then
        if stats.any (fun e => e.1 = deptKey dept) then
          countPresent (bumpPresent stats (deptKey dept)) rest
        else
          .error "TypeError"
      else
        countPresent stats rest

/-- Rounded percentage as computed by Math.round((present / total) * 100):
round-half-up of 100 * present / total, written over naturals. -/
def roundPct (present total : Nat) : Nat :=
  (200 * present + total) / (2 * total)

/-- Embedding of `fetchDepartmentAttendance` from ReportsPage: build the
per-department totals from the active profiles, add the present counts from
the present-today join rows, then map every entry to a `deptData` element
with percentage Math.round((present / total) * 100). -/
def fetchDepartmentAttendance (allEmployees : List (Option String))
    (presentData : List (Option String × Bool)) :
    Except String (List DepartmentAttendance) :=
  let totals := allEmployees.foldl (fun s d => addTotal s (deptKey d)) []
  match countPresent totals presentData with
  | .error e => .error e
  | .ok stats =>
      .ok (stats.map fun e =>
        { department := e.1
          present := e.2.present
          total := e.2.total
          percentage := roundPct e.2.present e.2.total })

/-- The attendance uniqueness invariant: no two records share a (user, date)
pair. -/
def attendanceUnique (store : List AttendanceRecord) : Prop :=
  store.Pairwise fun a b => ¬(a.user_id = b.user_id ∧ a.date = b.date)

/-- Whether the accumulator already holds a counter for a department name
(the `!departmentStats[deptName]` test of the source). -/
def keyPresent (stats : List (String × DeptStat)) (name : String) : Bool :=
  stats.any fun e => e.1 = name

/-! ## Theorems -/

/-- C5: canManageEmployees (the spec's canManageWorkforce) is true for
exactly SUPERADMIN, ADMIN, HR, HOD and MANAGER, and false for DIRECTOR, for
EMPLOYEE and for an absent role; the conjunction enumerates every inhabitant
of `Option UserRole`, and the function is a pure function of the role. -/
theorem canManageEmployees_exact :
    canManageEmployees (some SUPERADMIN) = true ∧
    canManageEmployees (some ADMIN) = true ∧
    canManageEmployees (some HR) = true ∧
    canManageEmployees (some HOD) = true ∧
    canManageEmployees (some MANAGER) = true ∧
    canManageEmployees (some DIRECTOR) = false ∧
    canManageEmployees (some EMPLOYEE) = false ∧
    canManageEmployees none = false := by
  decide

/-- C10: an authenticated caller whose profile has not loaded passes the
guard even when a role allow-list is given — the role check fires only when
both the list and a loaded profile are present. -/
theorem protectedRoute_null_profile_renders (u : Nat) (rs : List UserRole) :
    ProtectedRoute ⟨false, some u, none⟩ (some rs) = .renderChildren := by
  rfl

/-- C6: with loading finished, an unauthenticated caller is redirected to
/auth; a caller whose loaded role is outside a provided allow-list is
redirected to /dashboard (the codomain of the guard has no error page and
the guard never throws); in particular an EMPLOYEE hitting the
employee-management allow-list is redirected to /dashboard. -/
theorem protectedRoute_guard (rrole : Option (List UserRole))
    (pr : Option UserProfile) (u : Nat) (p : UserProfile) (rs : List UserRole) :
    ProtectedRoute ⟨false, none, pr⟩ rrole = .redirectAuth ∧
    (rs.contains p.role = false →
      ProtectedRoute ⟨false, some u, some p⟩ (some rs) = .redirectDashboard) ∧
    (p.role = EMPLOYEE →
      ProtectedRoute ⟨false, some u, some p⟩ (some employeesRequiredRole) =
        .redirectDashboard) := by
  refine ⟨rfl, ?_, ?_⟩
  · intro h
    simp [ProtectedRoute]
    simpa using h
  · intro h
    simp [ProtectedRoute, employeesRequiredRole, h]

/-- Witness for C6 at concrete inputs. -/
theorem protectedRoute_guard_witness :
    ProtectedRoute ⟨false, none, none⟩ none = .redirectAuth ∧
    ProtectedRoute ⟨false, some 0, some ⟨0, EMPLOYEE⟩⟩ (some [ADMIN]) =
      .redirectDashboard ∧
    ProtectedRoute ⟨false, some 0, some ⟨0, EMPLOYEE⟩⟩ (some employeesRequiredRole) =
      .redirectDashboard := by
  have h := protectedRoute_guard none none 0 ⟨0, EMPLOYEE⟩ [ADMIN]
  exact ⟨h.1, h.2.1 (by decide), h.2.2 rfl⟩

/-- C9: geolocation resolution always completes with a string — the
coordinates on success and a sentinel on error (denial, unavailability,
timeout) or missing API — there is no reject path, and the punch handlers
produce their outcome for every geolocation outcome, so the punch
transition is never stuck on location capture. -/
theorem getCurrentLocation_total (o : GeoOutcome) (p : UserProfile)
    (today : String) (now : Int) (nextId : Nat) (store : List AttendanceRecord)
    (ta : AttendanceRecord) :
    ((∃ lat long, o = .position lat long ∧
        getCurrentLocation o = lat ++ ", " ++ long) ∨
      getCurrentLocation o = "Location not available" ∨
      getCurrentLocation o = "Geolocation not supported") ∧
    (handlePunchIn (some p) today now o nextId store).2.isSome = true ∧
    (handlePunchOut (some p) (some ta) now o store).2.isSome = true := by
  refine ⟨?_, ?_, rfl⟩
  · cases o with
    | position lat long => exact Or.inl ⟨lat, long, rfl, rfl⟩
    | geoError => exact Or.inr (Or.inl rfl)
    | unsupported => exact Or.inr (Or.inr rfl)
  · cases h : insertAttendance store (punchInRecord p today now o nextId) <;>
      simp [handlePunchIn, h]

/-- C7: on whole-day timestamps (what the parsed yyyy-mm-dd date strings of
the form are), calculateDays is the inclusive day count — the floor of the
absolute difference in days plus one — and the spec's example
2024-01-01..2024-01-03 (epoch days 19723 and 19725) gives 3 days. -/
theorem calculateDays_inclusive (ds de : Int) :
    calculateDays (ds * 86400000) (de * 86400000) =
      (de * 86400000 - ds * 86400000).natAbs / 86400000 + 1 ∧
    calculateDays (ds * 86400000) (de * 86400000) = (de - ds).natAbs + 1 ∧
    calculateDays (19723 * 86400000) (19725 * 86400000) = 3 := by
  have key : de * 86400000 - ds * 86400000 = (de - ds) * 86400000 := by ring
  have habs : (de * 86400000 - ds * 86400000).natAbs = (de - ds).natAbs * 86400000 := by
    rw [key, Int.natAbs_mul]
    rfl
  refine ⟨?_, ?_, by decide⟩
  · simp only [calculateDays, msPerDay, habs]
    omega
  · simp only [calculateDays, msPerDay, habs]
    omega

/-- Helper: the conditional insert reports the duplicate when a record for
the same (user, date) is already present. -/
theorem insertAttendance_dup (store : List AttendanceRecord)
    (rec : AttendanceRecord)
    (h : ∃ r ∈ store, r.user_id = rec.user_id ∧ r.date = rec.date) :
    insertAttendance store rec = .error .DuplicateRecordError := by
  obtain ⟨r, hr, hc⟩ := h
  have hany : (store.any fun r =>
      decide (r.user_id = rec.user_id ∧ r.date = rec.date)) = true :=
    List.any_eq_true.mpr ⟨r, hr, decide_eq_true hc⟩
  simp [insertAttendance, hany]
  exact ⟨r, hr, hc⟩

/-- Helper: the conditional insert appends the row when no record for the
same (user, date) is present. -/
theorem insertAttendance_no_dup (store : List AttendanceRecord)
    (rec : AttendanceRecord)
    (h : ∀ r ∈ store, ¬(r.user_id = rec.user_id ∧ r.date = rec.date)) :
    insertAttendance store rec = .ok (store ++ [rec]) := by
  have hany : (store.any fun r =>
      decide (r.user_id = rec.user_id ∧ r.date = rec.date)) = false := by
    simp only [List.any_eq_false, decide_eq_true_eq]
    exact h
  simp [insertAttendance, hany]
  intro x hx h1 h2
  exact h x hx ⟨h1, h2⟩

/-- C2: punch-in preserves the at-most-one-record-per-(user, date) invariant,
and when a record for (user, today) already exists the conditional insert
fails with DuplicateRecordError, the store is unchanged (no second record),
and the caller sees the destructive retry toast rather than a crash. -/
theorem punchIn_unique (p : UserProfile) (today : String) (now : Int)
    (geo : GeoOutcome) (nextId : Nat) (store : List AttendanceRecord)
    (hu : attendanceUnique store) :
    attendanceUnique (handlePunchIn (some p) today now geo nextId store).1 ∧
    (∀ r ∈ store, r.user_id = p.id → r.date = today →
      insertAttendance store (punchInRecord p today now geo nextId) =
        .error .DuplicateRecordError ∧
      (handlePunchIn (some p) today now geo nextId store).1 = store ∧
      (handlePunchIn (some p) today now geo nextId store).2 =
        some ⟨"Error", "Failed to punch in. Please try again.", true⟩) := by
  have hrec : (punchInRecord p today now geo nextId).user_id = p.id := rfl
  have hdate : (punchInRecord p today now geo nextId).date = today := rfl
  constructor
  · by_cases hdup : ∃ r ∈ store,
        r.user_id = (punchInRecord p today now geo nextId).user_id ∧
          r.date = (punchInRecord p today now geo nextId).date
    · have hins := insertAttendance_dup store (punchInRecord p today now geo nextId) hdup
      simpa [handlePunchIn, hins, attendanceUnique] using hu
    · have hins := insertAttendance_no_dup store (punchInRecord p today now geo nextId)
        (fun r hr hc => hdup ⟨r, hr, hc⟩)
      simp only [handlePunchIn, hins]
      rw [attendanceUnique, List.pairwise_append]
      refine ⟨hu, List.pairwise_singleton _ _, ?_⟩
      intro a ha b hb
      simp only [List.mem_singleton] at hb
      subst hb
      exact fun hc => hdup ⟨a, ha, hc⟩
  · intro r hr h1 h2
    have hins := insertAttendance_dup store (punchInRecord p today now geo nextId)
      ⟨r, hr, h1.trans hrec.symm, h2.trans hdate.symm⟩
    exact ⟨hins, by simp [handlePunchIn, hins], by simp [handlePunchIn, hins]⟩

/-- Witness for C2: a second punch-in of user 5 on 2024-03-01 leaves the
one-record store unchanged and reports the retryable failure. -/
theorem punchIn_unique_witness :
    attendanceUnique
      ((handlePunchIn (some ⟨5, EMPLOYEE⟩) "2024-03-01" 200 .geoError 2
        [⟨1, 5, "2024-03-01", some 100, none, none, "PRESENT", some "x", none⟩]).1) ∧
    (handlePunchIn (some ⟨5, EMPLOYEE⟩) "2024-03-01" 200 .geoError 2
        [⟨1, 5, "2024-03-01", some 100, none, none, "PRESENT", some "x", none⟩]).1 =
      [⟨1, 5, "2024-03-01", some 100, none, none, "PRESENT", some "x", none⟩] ∧
    (handlePunchIn (some ⟨5, EMPLOYEE⟩) "2024-03-01" 200 .geoError 2
        [⟨1, 5, "2024-03-01", some 100, none, none, "PRESENT", some "x", none⟩]).2 =
      some ⟨"Error", "Failed to punch in. Please try again.", true⟩ := by
  have h := punchIn_unique ⟨5, EMPLOYEE⟩ "2024-03-01" 200 .geoError 2
    [⟨1, 5, "2024-03-01", some 100, none, none, "PRESENT", some "x", none⟩]
    (by simp [attendanceUnique])
  have h2 := h.2 ⟨1, 5, "2024-03-01", some 100, none, none, "PRESENT", some "x", none⟩
    (by simp) rfl rfl
  exact ⟨h.1, h2.2.1, h2.2.2⟩

/-- C3 counterexample: punch-out on an already-closed record does not fail —
it overwrites the recorded punch-out (100/200 become punch-out 900) and
reports success, and punch-out with no loaded record is a silent no-op with
no error of any kind; there is no InvalidStateError in the code. -/
theorem punchOut_counterexample :
    handlePunchOut (some ⟨5, EMPLOYEE⟩)
        (some ⟨1, 5, "2024-03-01", some 100, some 200, none, "PRESENT", some "a", some "b"⟩)
        900 .geoError
        [⟨1, 5, "2024-03-01", some 100, some 200, none, "PRESENT", some "a", some "b"⟩] =
      ([⟨1, 5, "2024-03-01", some 100, some 900, none, "PRESENT", some "a",
          some "Location not available"⟩],
        some ⟨"Punched Out!", "Your day has been completed.", false⟩) ∧
    handlePunchOut (some ⟨5, EMPLOYEE⟩) none 900 .geoError [] = ([], none) := by
  constructor <;> rfl

/-- C3 amended: the open-record gating lives in the page, not the handler —
the punch-out control is rendered exactly when a today-record with no
punch-out is loaded; the handler is a silent no-op when the profile or the
loaded record is absent, and otherwise updates the matching row
unconditionally, whatever its current punch-out state. -/
theorem punchOut_ui_gated (ta : Option AttendanceRecord) (p : UserProfile)
    (r : AttendanceRecord) (now : Int) (geo : GeoOutcome)
    (store : List AttendanceRecord) :
    (todayControl ta = .punchOutButton ↔ ∃ rec, ta = some rec ∧ rec.punch_out = none) ∧
    handlePunchOut (some p) none now geo store = (store, none) ∧
    handlePunchOut none ta now geo store = (store, none) ∧
    handlePunchOut (some p) (some r) now geo store =
      (store.map fun x =>
        if x.id = r.id then
          { x with punch_out := some now
                   location_out := some (getCurrentLocation geo) }
        else x,
       some ⟨"Punched Out!", "Your day has been completed.", false⟩) := by
  refine ⟨?_, rfl, ?_, rfl⟩
  · cases ta with
    | none => simp [todayControl]
    | some rec =>
        by_cases hp : rec.punch_out = none <;> simp [todayControl, hp]
  · cases ta <;> rfl

/-- Witness for C3 amended at concrete inputs. -/
theorem punchOut_ui_gated_witness :
    todayControl (some ⟨1, 5, "2024-03-01", some 100, none, none, "PRESENT", some "a", none⟩) =
      .punchOutButton ∧
    handlePunchOut (some ⟨5, EMPLOYEE⟩) none 900 .geoError [] = ([], none) := by
  have h := punchOut_ui_gated
    (some ⟨1, 5, "2024-03-01", some 100, none, none, "PRESENT", some "a", none⟩)
    ⟨5, EMPLOYEE⟩
    ⟨1, 5, "2024-03-01", some 100, none, none, "PRESENT", some "a", none⟩ 900 .geoError []
  exact ⟨h.1.mpr ⟨_, rfl, rfl⟩, h.2.1⟩

/-- C1 counterexample: a caller with role EMPLOYEE (for whom
canManageEmployees is false) decides an already-APPROVED request, and the
operation succeeds — no AuthorizationError, no InvalidStateError — silently
replacing the first decision: status APPROVED by approver 3 becomes
REJECTED by approver 7. -/
theorem approveReject_counterexample :
    canManageEmployees (some EMPLOYEE) = false ∧
    handleApproveReject (some ⟨7, EMPLOYEE⟩) 1 .REJECTED 900
        [⟨1, 2, "SICK", 0, 86400000, "flu", "APPROVED", some 3, some 500⟩] =
      [⟨1, 2, "SICK", 0, 86400000, "flu", "REJECTED", some 7, some 900⟩] := by
  constructor <;> rfl

/-- C1 amended: the PENDING-and-capability gating exists only in the page —
the approve/reject buttons are rendered exactly for PENDING requests inside
the all-requests panel shown to canManageEmployees viewers — while the
decision handler itself checks neither: with no profile it is a silent
no-op, and otherwise it unconditionally rewrites the row with the matching
id to the target status with the caller as approver, whatever the row's
current status and the caller's role, so a second decision overrides the
first instead of failing. -/
theorem approveReject_unconditional (p : UserProfile) (requestId : Nat)
    (s : DecisionStatus) (now : Int) (store : List LeaveRequest)
    (r : LeaveRequest) (viewer : Option UserProfile) (q : LeaveRequest) :
    (decisionButtonsShown viewer q = true ↔
      canManageEmployees (viewer.map fun v => v.role) = true ∧
        q.status = "PENDING") ∧
    handleApproveReject none requestId s now store = store ∧
    (r ∈ store → r.id = requestId →
      { r with status := s.str
               approved_by := some p.id
               approved_at := some now } ∈
        handleApproveReject (some p) requestId s now store) ∧
    (r ∈ store → r.id ≠ requestId →
      r ∈ handleApproveReject (some p) requestId s now store) := by
  refine ⟨?_, rfl, ?_, ?_⟩
  · simp [decisionButtonsShown]
  · intro hr hid
    have := List.mem_map_of_mem (fun x : LeaveRequest =>
      if x.id = requestId then
        { x with status := s.str
                 approved_by := some p.id
                 approved_at := some now }
      else x) hr
    simpa [handleApproveReject, hid] using this
  · intro hr hid
    have := List.mem_map_of_mem (fun x : LeaveRequest =>
      if x.id = requestId then
        { x with status := s.str
                 approved_by := some p.id
                 approved_at := some now }
      else x) hr
    simpa [handleApproveReject, hid] using this

/-- Witness for C1 amended at concrete inputs. -/
theorem approveReject_unconditional_witness :
    decisionButtonsShown (some ⟨4, MANAGER⟩)
      ⟨1, 2, "SICK", 0, 86400000, "flu", "PENDING", none, none⟩ = true ∧
    (⟨1, 2, "SICK", 0, 86400000, "flu", "APPROVED", some 4, some 900⟩ : LeaveRequest) ∈
      handleApproveReject (some ⟨4, MANAGER⟩) 1 .APPROVED 900
        [⟨1, 2, "SICK", 0, 86400000, "flu", "PENDING", none, none⟩] := by
  have h := approveReject_unconditional ⟨4, MANAGER⟩ 1 .APPROVED 900
    [⟨1, 2, "SICK", 0, 86400000, "flu", "PENDING", none, none⟩]
    ⟨1, 2, "SICK", 0, 86400000, "flu", "PENDING", none, none⟩
    (some ⟨4, MANAGER⟩)
    ⟨1, 2, "SICK", 0, 86400000, "flu", "PENDING", none, none⟩
  exact ⟨h.1.mpr ⟨rfl, rfl⟩, h.2.2.1 (by simp) rfl⟩

/-- C4 counterexample: a submission whose end date (day 1) precedes its
start date (day 2) and whose reason is empty is nevertheless inserted — a
PENDING row is created and success is reported; there is no
InvalidRangeError and no ValidationError in the code. -/
theorem submit_counterexample :
    (86400000 : Int) < 172800000 ∧
    handleSubmit (some ⟨2, EMPLOYEE⟩) ⟨"SICK", 172800000, 86400000, ""⟩ 1 [] =
      ([⟨1, 2, "SICK", 172800000, 86400000, "", "PENDING", none, none⟩],
        some ⟨"Success", "Leave request submitted successfully", false⟩) := by
  constructor
  · decide
  · rfl

/-- C4 amended: the submit handler performs no validation — for any
authenticated profile it appends the row with the form's fields and status
PENDING and reports success, whatever the date order and reason — and the
end-ge-start range and non-empty reason are imposed only by the form's
native input constraints (min = start date on the end-date input, required
on the reason textarea). -/
theorem submit_unvalidated (p : UserProfile) (fd : LeaveFormData)
    (nextId : Nat) (store : List LeaveRequest) :
    handleSubmit (some p) fd nextId store =
      (store ++
        [⟨nextId, p.id, fd.leave_type, fd.start_date, fd.end_date,
          fd.reason, "PENDING", none, none⟩],
        some ⟨"Success", "Leave request submitted successfully", false⟩) ∧
    (formInputConstraints fd = true →
      fd.start_date ≤ fd.end_date ∧ fd.reason ≠ "") := by
  refine ⟨rfl, ?_⟩
  intro h
  simpa [formInputConstraints] using h

/-- Witness for C4 amended at concrete inputs. -/
theorem submit_unvalidated_witness :
    handleSubmit (some ⟨2, EMPLOYEE⟩) ⟨"SICK", 86400000, 172800000, "flu"⟩ 1 [] =
      ([⟨1, 2, "SICK", 86400000, 172800000, "flu", "PENDING", none, none⟩],
        some ⟨"Success", "Leave request submitted successfully", false⟩) ∧
    ((86400000 : Int) ≤ 172800000 ∧ ("flu" : String) ≠ "") := by
  have h := submit_unvalidated ⟨2, EMPLOYEE⟩ ⟨"SICK", 86400000, 172800000, "flu"⟩ 1 []
  exact ⟨h.1, h.2 (by decide)⟩

/-- Helper: both accumulator passes only rewrite the counter component, so
key lookups are invariant under them. -/
theorem any_key_map_fst (f : String × DeptStat → String × DeptStat)
    (hf : ∀ e, (f e).1 = e.1) (s : List (String × DeptStat)) (n : String) :
    ((s.map f).any fun e => decide (e.1 = n)) =
      (s.any fun e => decide (e.1 = n)) := by
  induction s with
  | nil => rfl
  | cons a t ih => simp [List.any_cons, hf, ih]

/-- Helper: the first-pass step keeps every key. -/
theorem keyPresent_addTotal_mono (s : List (String × DeptStat)) (k n : String)
    (h : keyPresent s n = true) : keyPresent (addTotal s k) n = true := by
  unfold keyPresent at h ⊢
  unfold addTotal
  split
  · rw [any_key_map_fst]
    · exact h
    · intro e
      by_cases hek : e.1 = k <;> simp [hek]
  · simp only [List.any_append, h, Bool.true_or]

/-- Helper: the first-pass step establishes its own key. -/
theorem keyPresent_addTotal_self (s : List (String × DeptStat)) (k : String) :
    keyPresent (addTotal s k) k = true := by
  unfold keyPresent addTotal
  split
  · rename_i h
    rw [any_key_map_fst]
    · exact h
    · intro e
      by_cases hek : e.1 = k <;> simp [hek]
  · simp

/-- Helper: after the first pass, every department key of an employee is
present. -/
theorem keyPresent_foldl (emps : List (Option String)) :
    ∀ (acc : List (String × DeptStat)) (n : String),
      (n ∈ emps.map deptKey ∨ keyPresent acc n = true) →
      keyPresent (emps.foldl (fun s d => addTotal s (deptKey d)) acc) n = true := by
  induction emps with
  | nil =>
      intro acc n h
      rcases h with h | h
      · simp at h
      · simpa using h
  | cons d rest ih =>
      intro acc n h
      simp only [List.foldl_cons]
      apply ih
      rcases h with h | h
      · simp only [List.map_cons, List.mem_cons] at h
        rcases h with h | h
        · subst h
          exact Or.inr (keyPresent_addTotal_self acc (deptKey d))
        · exact Or.inl h
      · exact Or.inr (keyPresent_addTotal_mono acc (deptKey d) n h)

/-- Helper: the first-pass step preserves positive totals and keys drawn
from K, and introduces its own key with total 1. -/
theorem addTotal_inv (K : String → Prop) (s : List (String × DeptStat))
    (k : String) (hk : K k) (h : ∀ e ∈ s, 1 ≤ e.2.total ∧ K e.1) :
    ∀ e ∈ addTotal s k, 1 ≤ e.2.total ∧ K e.1 := by
  intro e he
  unfold addTotal at he
  split at he
  · rcases List.mem_map.1 he with ⟨a, ha, rfl⟩
    by_cases hak : a.1 = k
    · simp only [if_pos hak]
      exact ⟨by omega, (h a ha).2⟩
    · simp only [if_neg hak]
      exact h a ha
  · rcases List.mem_append.1 he with ha | hb
    · exact h e ha
    · simp only [List.mem_singleton] at hb
      subst hb
      exact ⟨le_refl 1, hk⟩

/-- Helper: after the first pass every accumulated entry has positive total
and an employee department key. -/
theorem foldl_addTotal_inv (K : String → Prop) :
    ∀ (emps : List (Option String)) (acc : List (String × DeptStat)),
      (∀ d ∈ emps, K (deptKey d)) →
      (∀ e ∈ acc, 1 ≤ e.2.total ∧ K e.1) →
      ∀ e ∈ emps.foldl (fun s d => addTotal s (deptKey d)) acc,
        1 ≤ e.2.total ∧ K e.1 := by
  intro emps
  induction emps with
  | nil =>
      intro acc _ hacc
      simpa using hacc
  | cons d rest ih =>
      intro acc hK hacc
      simp only [List.foldl_cons]
      exact ih (addTotal acc (deptKey d))
        (fun x hx => hK x (List.mem_cons_of_mem d hx))
        (addTotal_inv K acc (deptKey d) (hK d (List.mem_cons_self d rest)) hacc)

/-- Helper: the second-pass step only changes present counters. -/
theorem bumpPresent_fst_total (s : List (String × DeptStat)) (k : String) :
    ∀ e ∈ bumpPresent s k, ∃ a ∈ s, e.1 = a.1 ∧ e.2.total = a.2.total := by
  intro e he
  rcases List.mem_map.1 he with ⟨a, ha, rfl⟩
  by_cases hak : a.1 = k
  · refine ⟨a, ha, ?_, ?_⟩ <;> simp [hak]
  · refine ⟨a, ha, ?_, ?_⟩ <;> simp [hak]

/-- Helper: the second pass preserves any property of the key and total of
each entry. -/
theorem countPresent_inv (P : String → Nat → Prop) :
    ∀ (pd : List (Option String × Bool)) (stats out : List (String × DeptStat)),
      countPresent stats pd = .ok out →
      (∀ e ∈ stats, P e.1 e.2.total) → ∀ e ∈ out, P e.1 e.2.total := by
  intro pd
  induction pd with
  | nil =>
      intro stats out h hP
      simp only [countPresent, Except.ok.injEq] at h
      subst h
      exact hP
  | cons x rest ih =>
      intro stats out h hP
      rcases x with ⟨dept, isP⟩
      unfold countPresent at h
      split at h
      · split at h
        · apply ih (bumpPresent stats (deptKey dept)) out h
          intro e he
          obtain ⟨a, ha, h1, h2⟩ := bumpPresent_fst_total stats (deptKey dept) e he
          rw [h1, h2]
          exact hP a ha
        · cases h
      · exact ih stats out h hP

/-- Helper: the second pass succeeds when every PRESENT row's department key
is present in the accumulator. -/
theorem countPresent_ok :
    ∀ (pd : List (Option String × Bool)) (stats : List (String × DeptStat)),
      (∀ x ∈ pd, x.2 = true → keyPresent stats (deptKey x.1) = true) →
      ∃ out, countPresent stats pd = .ok out := by
  intro pd
  induction pd with
  | nil =>
      intro stats _
      exact ⟨stats, rfl⟩
  | cons x rest ih =>
      intro stats h
      rcases x with ⟨dept, isP⟩
      cases isP with
      | false =>
          obtain ⟨out, hout⟩ := ih stats
            (fun y hy hyt => h y (List.mem_cons_of_mem _ hy) hyt)
          exact ⟨out, by simpa [countPresent] using hout⟩
      | true =>
          have hk : keyPresent stats (deptKey dept) = true :=
            h (dept, true) (List.mem_cons_self _ _) rfl
          have hkeys : ∀ y ∈ rest, y.2 = true →
              keyPresent (bumpPresent stats (deptKey dept)) (deptKey y.1) = true := by
            intro y hy hyt
            have := h y (List.mem_cons_of_mem _ hy) hyt
            unfold keyPresent at this ⊢
            unfold bumpPresent
            rw [any_key_map_fst]
            · exact this
            · intro e
              by_cases hek : e.1 = deptKey dept <;> simp [hek]
          obtain ⟨out, hout⟩ := ih (bumpPresent stats (deptKey dept)) hkeys
          refine ⟨out, ?_⟩
          unfold countPresent
          unfold keyPresent at hk
          simp only [if_pos rfl, hk, if_true]
          exact hout

/-- Helper: roundPct is exactly the round-half-up of 100 * present / total
over the rationals, for positive total. -/
theorem roundPct_eq_round (p t : Nat) (ht : 1 ≤ t) :
    (roundPct p t : ℤ) = round ((100 * p : ℚ) / (t : ℚ)) := by
  have ht0 : (0 : ℚ) < (t : ℚ) := by exact_mod_cast ht
  have h2t : (0 : ℚ) < ((2 * t : ℕ) : ℚ) := by
    have h2t' : 0 < 2 * t := by omega
    exact_mod_cast h2t'
  have hq : (100 * (p : ℚ)) / (t : ℚ) + 1 / 2 =
      ((200 * p + t : ℕ) : ℚ) / ((2 * t : ℕ) : ℚ) := by
    push_cast
    field_simp
    ring
  rw [round_eq, show ((100 * p : ℚ)) = (100 * (p : ℚ)) from rfl, hq]
  symm
  rw [Int.floor_eq_iff]
  constructor
  · rw [le_div_iff₀ h2t]
    have hle : roundPct p t * (2 * t) ≤ 200 * p + t := Nat.div_mul_le_self _ _
    exact_mod_cast hle
  · rw [div_lt_iff₀ h2t]
    have h1 := Nat.div_add_mod (200 * p + t) (2 * t)
    have h2 : (200 * p + t) % (2 * t) < 2 * t := Nat.mod_lt _ (by omega)
    have hlt : 200 * p + t < (roundPct p t + 1) * (2 * t) := by
      have hexp : (roundPct p t + 1) * (2 * t) =
          2 * t * ((200 * p + t) / (2 * t)) + 2 * t := by
        rw [roundPct]
        ring
      rw [hexp]
      omega
    exact_mod_cast hlt

/-- C8: the per-department aggregation is defined — given that every
PRESENT join row belongs to an active employee's department (both queries
read the same profiles), the computation succeeds, and every produced entry
has a positive total, its percentage equal to round-half-up of
100 * present / total (Math.round of the source), and a department name
contributed by some active employee — so a department with zero active
employees never appears and no division of a zero total is ever taken. -/
theorem deptAttendance_defined (emps : List (Option String))
    (pd : List (Option String × Bool)) (out : List DepartmentAttendance)
    (hpd : ∀ x ∈ pd, x.2 = true → deptKey x.1 ∈ emps.map deptKey) :
    (∃ res, fetchDepartmentAttendance emps pd = .ok res) ∧
    (fetchDepartmentAttendance emps pd = .ok out →
      ∀ d ∈ out, 1 ≤ d.total ∧
        (d.percentage : ℤ) = round ((100 * d.present : ℚ) / (d.total : ℚ)) ∧
        d.department ∈ emps.map deptKey) := by
  have hkeys : ∀ x ∈ pd, x.2 = true →
      keyPresent (emps.foldl (fun s d => addTotal s (deptKey d)) [])
        (deptKey x.1) = true := by
    intro x hx hxt
    exact keyPresent_foldl emps [] (deptKey x.1) (Or.inl (hpd x hx hxt))
  obtain ⟨mid, hmid⟩ := countPresent_ok pd
    (emps.foldl (fun s d => addTotal s (deptKey d)) []) hkeys
  constructor
  · refine ⟨mid.map fun e =>
      { department := e.1
        present := e.2.present
        total := e.2.total
        percentage := roundPct e.2.present e.2.total }, ?_⟩
    simp [fetchDepartmentAttendance, hmid]
  · intro hfetch d hd
    have hstats : ∀ e ∈ mid, 1 ≤ e.2.total ∧ e.1 ∈ emps.map deptKey := by
      have hinv := foldl_addTotal_inv (fun n => n ∈ emps.map deptKey) emps []
        (fun x hx => List.mem_map_of_mem deptKey hx) (by simp)
      exact countPresent_inv (fun n tot => 1 ≤ tot ∧ n ∈ emps.map deptKey)
        pd _ mid hmid hinv
    have hout : out = mid.map fun e =>
        { department := e.1
          present := e.2.present
          total := e.2.total
          percentage := roundPct e.2.present e.2.total } := by
      simp only [fetchDepartmentAttendance, hmid, Except.ok.injEq] at hfetch
      exact hfetch.symm
    subst hout
    rcases List.mem_map.1 hd with ⟨e, he, rfl⟩
    obtain ⟨h1, h2⟩ := hstats e he
    exact ⟨h1, roundPct_eq_round e.2.present e.2.total h1, h2⟩

/-- Witness for C8 at concrete inputs: one Engineering employee present, one
employee without a department absent. -/
theorem deptAttendance_defined_witness :
    (∃ res, fetchDepartmentAttendance [some "Eng", none] [(some "Eng", true)] =
      .ok res) ∧
    (∀ d ∈ ([⟨"Eng", 1, 1, 100⟩, ⟨"No Department", 0, 1, 0⟩] :
        List DepartmentAttendance), 1 ≤ d.total ∧
      (d.percentage : ℤ) = round ((100 * d.present : ℚ) / (d.total : ℚ)) ∧
      d.department ∈ ([some "Eng", none] : List (Option String)).map deptKey) := by
  have h := deptAttendance_defined [some "Eng", none] [(some "Eng", true)]
    [⟨"Eng", 1, 1, 100⟩, ⟨"No Department", 0, 1, 0⟩] (by simp [deptKey])
  exact ⟨h.1, h.2 (by rfl)⟩

end HRMS
